import Mathlib

/-!
Formal model of the AURA threat-triage pipeline: the reputation engine
(threat_intel_service.py), the behavioral anomaly scorer
(anomaly_detection_service.py), the firewall controller (firewall_manager.py),
the integrity drift detector (integrity_monitor.py) and the triage
orchestrator (main.py, process_packet).  Scores are modelled as rationals;
the Python built-ins round (banker's rounding) and int (truncation toward
zero) are modelled explicitly.  Calls into the ipaddress library, the
platform firewall tool, the external reputation API and the string hash are
modelled as oracle parameters, since they are external collaborators of the
code under analysis.
-/

/-- Python round-half-to-even on a rational, returning an integer. -/
def roundHalfEven (q : ℚ) : ℤ :=
  if q - (⌊q⌋ : ℚ) < 1/2 then ⌊q⌋
  else if 1/2 < q - (⌊q⌋ : ℚ) then ⌊q⌋ + 1
  else if ⌊q⌋ % 2 = 0 then ⌊q⌋ else ⌊q⌋ + 1

/-- Python round(q, 2): round to two decimal places, half to even. -/
def round2 (q : ℚ) : ℚ := (roundHalfEven (q * 100) : ℚ) / 100

/-- Python int(q): truncation toward zero. -/
def pyInt (q : ℚ) : ℤ := if 0 ≤ q then ⌊q⌋ else ⌈q⌉

theorem roundHalfEven_cases (q : ℚ) :
    roundHalfEven q = ⌊q⌋ ∨
      (roundHalfEven q = ⌊q⌋ + 1 ∧ 1/2 ≤ q - (⌊q⌋ : ℚ)) := by
  unfold roundHalfEven
  split
  · exact Or.inl rfl
  · rename_i h1
    push_neg at h1
    split
    · exact Or.inr ⟨rfl, h1⟩
    · split
      · exact Or.inl rfl
      · exact Or.inr ⟨rfl, h1⟩

theorem le_roundHalfEven (n : ℤ) (q : ℚ) (h : (n : ℚ) ≤ q) :
    n ≤ roundHalfEven q := by
  have hf : n ≤ ⌊q⌋ := Int.le_floor.mpr h
  rcases roundHalfEven_cases q with h1 | ⟨h1, _⟩ <;> omega

theorem roundHalfEven_le (n : ℤ) (q : ℚ) (h : q ≤ (n : ℚ)) :
    roundHalfEven q ≤ n := by
  have hf : (⌊q⌋ : ℚ) ≤ q := Int.floor_le q
  have h1 : ⌊q⌋ ≤ n := by exact_mod_cast le_trans hf h
  rcases roundHalfEven_cases q with h2 | ⟨h2, h3⟩
  · omega
  · have h4 : (⌊q⌋ : ℚ) + 1/2 ≤ q := by linarith
    have h5 : (⌊q⌋ : ℚ) < (n : ℚ) := by linarith
    have h6 : ⌊q⌋ < n := by exact_mod_cast h5
    omega

/-- Rounding to two decimals respects bounds that are exact hundredths. -/
theorem round2_bounds (m n : ℤ) (q : ℚ) (h1 : (m : ℚ)/100 ≤ q)
    (h2 : q ≤ (n : ℚ)/100) : (m : ℚ)/100 ≤ round2 q ∧ round2 q ≤ (n : ℚ)/100 := by
  have hm : (m : ℚ) ≤ q * 100 := by linarith
  have hn : q * 100 ≤ (n : ℚ) := by linarith
  have l1 : m ≤ roundHalfEven (q * 100) := le_roundHalfEven m _ hm
  have l2 : roundHalfEven (q * 100) ≤ n := roundHalfEven_le n _ hn
  have c1 : (m : ℚ) ≤ (roundHalfEven (q * 100) : ℚ) := by exact_mod_cast l1
  have c2 : ((roundHalfEven (q * 100)) : ℚ) ≤ (n : ℚ) := by exact_mod_cast l2
  unfold round2
  constructor <;> [linarith; linarith]

theorem round2_mem_unit (q : ℚ) (h1 : 0 ≤ q) (h2 : q ≤ 1) :
    0 ≤ round2 q ∧ round2 q ≤ 1 := by
  have := round2_bounds 0 100 q (by push_cast; linarith) (by push_cast; linarith)
  push_cast at this
  constructor <;> linarith [this.1, this.2]

/-!
Reputation engine (threat_intel_service.py).  The ipaddress library is an
oracle: parses ip is whether ip_address(ip) succeeds, isPriv ip is
addr.is_private (which in Python includes loopback ranges), and
netContains ip entry is some b when the containment test
addr in ip_network(entry, strict=False) evaluates to b, none when it raises.
The per-process string hash is the oracle hashf.
-/

structure IpOracle where
  parses : String → Bool
  isPriv : String → Bool
  netContains : String → String → Option Bool

/-- ThreatIntel._abuse_lookup: returns none without a key or during
cool-down or on API failure, otherwise min(1.0, max(0.0, score/100)). -/
def abuse_lookup (hasKey coolingDown : Bool) (apiResult : Option ℚ) : Option ℚ :=
  if ¬ hasKey then none
  else if coolingDown then none
  else match apiResult with
    | some s => some (min 1 (max 0 (s / 100)))
    | none => none

/-- Python str.startswith, on the character sequences. -/
def startsWith (ip p : String) : Bool :=
  p.data.isPrefixOf ip.data

/-- The Spamhaus loop in check_ip_reputation: CIDR entries go through the
containment oracle with a string-head fallback when parsing raises; plain
entries use exact string equality. -/
def spamhausMatch (netContains : String → String → Option Bool) (ip : String) :
    List String → Bool
  | [] => false
  | entry :: rest =>
    let hit :=
      if entry.contains '/' then
        match netContains ip entry with
        | some b => b
        | none => startsWith ip ((entry.splitOn "/").headD "")
      else ip == entry
    if hit then true else spamhausMatch netContains ip rest

def highRisk : List String := ["45.", "185.", "103.", "198.", "156."]

def medRisk : List String := ["13.", "20.", "34.", "52.", "104.", "40.", "23."]

def matchesAny (ps : List String) (ip : String) : Bool :=
  ps.any (fun p => startsWith ip p)

/-- (hash(ip) % 10) / 10.0 as in the heuristic tail of check_ip_reputation. -/
def jitterIdx (hashf : String → ℤ) (ip : String) : ℚ :=
  ((hashf ip % 10 : ℤ) : ℚ) / 10

/-- The heuristic fallback tail of check_ip_reputation. -/
def heuristic (hashf : String → ℤ) (ip : String) : ℚ :=
  if matchesAny highRisk ip then round2 (3/4 + (1/5) * jitterIdx hashf ip)
  else if matchesAny medRisk ip then round2 (1/5 + (3/10) * jitterIdx hashf ip)
  else round2 ((1/50) * jitterIdx hashf ip)

/-- ThreatIntel.check_ip_reputation: unparsable or private input scores 0,
then the Spamhaus list, then the external lookup, then the heuristic. -/
def check_ip_reputation (O : IpOracle) (bad_entries : List String)
    (hasKey coolingDown : Bool) (apiResult : Option ℚ) (hashf : String → ℤ)
    (ip : String) : ℚ :=
  if ¬ O.parses ip then 0
  else if O.isPriv ip then 0
  else if spamhausMatch O.netContains ip bad_entries then 1
  else match abuse_lookup hasKey coolingDown apiResult with
    | some v => round2 v
    | none => heuristic hashf ip

theorem jitterIdx_bounds (hashf : String → ℤ) (ip : String) :
    0 ≤ jitterIdx hashf ip ∧ jitterIdx hashf ip ≤ 9/10 := by
  unfold jitterIdx
  have h1 : 0 ≤ hashf ip % 10 := Int.emod_nonneg _ (by norm_num)
  have h2 : hashf ip % 10 < 10 := Int.emod_lt_of_pos _ (by norm_num)
  have h3 : hashf ip % 10 ≤ 9 := by omega
  have c1 : (0 : ℚ) ≤ ((hashf ip % 10 : ℤ) : ℚ) := by exact_mod_cast h1
  have c3 : ((hashf ip % 10 : ℤ) : ℚ) ≤ 9 := by exact_mod_cast h3
  constructor <;> [linarith; linarith]

theorem heuristic_bounds (hashf : String → ℤ) (ip : String) :
    0 ≤ heuristic hashf ip ∧ heuristic hashf ip ≤ 1 := by
  obtain ⟨j1, j2⟩ := jitterIdx_bounds hashf ip
  unfold heuristic
  split
  · exact round2_mem_unit _ (by linarith) (by linarith)
  · split
    · exact round2_mem_unit _ (by linarith) (by linarith)
    · exact round2_mem_unit _ (by linarith) (by linarith)

/-!
Association lists model Python dicts (unique keys, insertion order).
-/

/-- Python dict.get. -/
def dictGet {α : Type} : List (String × α) → String → Option α
  | [], _ => none
  | (k, v) :: rest, key => if k = key then some v else dictGet rest key

/-- Python dict item assignment: replace in place or append. -/
def dictSet {α : Type} : List (String × α) → String → α → List (String × α)
  | [], key, val => [(key, val)]
  | (k, v) :: rest, key, val =>
      if k = key then (key, val) :: rest else (k, v) :: dictSet rest key val

theorem dictGet_eq_none {α : Type} (l : List (String × α)) (k : String) :
    dictGet l k = none ↔ k ∉ l.map Prod.fst := by
  induction l with
  | nil => simp [dictGet]
  | cons p rest ih =>
    obtain ⟨a, b⟩ := p
    by_cases h : a = k
    · subst h
      simp [dictGet]
    · simp [dictGet, h, ih, Ne.symm h]

theorem dictGet_eq_some {α : Type} (l : List (String × α))
    (hl : (l.map Prod.fst).Nodup) (k : String) (v : α) :
    dictGet l k = some v ↔ (k, v) ∈ l := by
  induction l with
  | nil => simp [dictGet]
  | cons p rest ih =>
    obtain ⟨a, b⟩ := p
    simp only [List.map_cons, List.nodup_cons] at hl
    by_cases h : a = k
    · subst h
      have hg : dictGet ((a, b) :: rest) a = some b := by simp [dictGet]
      rw [hg]
      simp only [Option.some_inj, List.mem_cons]
      constructor
      · rintro rfl
        exact Or.inl rfl
      · rintro (h2 | h2)
        · exact (((Prod.mk.injEq _ _ _ _).mp h2).2).symm
        · exact absurd (List.mem_map_of_mem Prod.fst h2) hl.1
    · simp only [dictGet, if_neg h, List.mem_cons, ih hl.2]
      constructor
      · exact Or.inr
      · rintro (h2 | h2)
        · exact absurd (congrArg Prod.fst h2).symm h
        · exact h2

/-!
Behavioral anomaly scorer (anomaly_detection_service.py).  Wall-clock time
is an explicit parameter: each call observes a single timestamp now.  The
three random draws of a call (the fresh-record uniform(0.5, 3.0) seed, the
uniform(0.6, 1.0) factor, the uniform(0.0, 0.2) noise) are parameters.
-/

structure ActivityRecord where
  count : ℕ
  last_seen : ℚ
  avg_interval : ℚ
deriving DecidableEq, Repr

structure DetectorState where
  ip_activity : List (String × ActivityRecord)
  learning_mode : Bool
  learning_start : ℚ
  learning_period : ℚ
deriving DecidableEq, Repr

/-- BehavioralAnomalyDetector.__init__ at a given start time. -/
def initDetector (now : ℚ) : DetectorState :=
  { ip_activity := [], learning_mode := true, learning_start := now,
    learning_period := 15 }

structure RandDraws where
  init_avg : ℚ
  factor : ℚ
  noise : ℚ
deriving DecidableEq, Repr

/-- BehavioralAnomalyDetector.calculate_threat_score. -/
def calculate_threat_score (r : RandDraws) (now : ℚ) (ip : String)
    (st : DetectorState) : ℚ × DetectorState :=
  let lm := if st.learning_mode ∧ now - st.learning_start > st.learning_period
            then false else st.learning_mode
  let act := match dictGet st.ip_activity ip with
    | some d => d
    | none => { count := 0, last_seen := now, avg_interval := r.init_avg }
  let interval := now - act.last_seen
  let deviation := max 0 ((act.avg_interval - interval) / act.avg_interval)
  let base0 := deviation * r.factor
  let base1 := if interval < 3/10 then base0 + 3/10 else base0
  let score := min 1 (base1 + r.noise)
  let newAvg := if lm then (act.avg_interval + interval) / 2
                else act.avg_interval
  let act2 : ActivityRecord :=
    { count := act.count + 1, last_seen := now, avg_interval := newAvg }
  (round2 score,
   { st with learning_mode := lm, ip_activity := dictSet st.ip_activity ip act2 })

inductive ScorerStatus where
  | learning (time_remaining : ℤ)
  | monitoring
deriving DecidableEq, Repr

/-- BehavioralAnomalyDetector.get_status. -/
def get_status (now : ℚ) (st : DetectorState) : ScorerStatus :=
  if st.learning_mode then
    .learning (max 0 (pyInt (st.learning_period - (now - st.learning_start))))
  else .monitoring

/-- foldl of calculate_threat_score over a trace of calls. -/
def runCalls (calls : List (RandDraws × ℚ × String)) (st : DetectorState) :
    DetectorState :=
  calls.foldl (fun s c => (calculate_threat_score c.1 c.2.1 c.2.2 s).2) st

/-!
Firewall controller (firewall_manager.py).  The blocked set is a Finset of
address strings; the persisted record is the JSON array last written, i.e.
the sorted list of the set.  Platform enforcement is an oracle: osWindows
says whether the netsh branch runs, and enfRaises ip (resp. delRaises ip)
says whether the subprocess invocation raises for that address; a non-zero
exit status never raises because the source passes check=False, so it is
not distinguished.  Exceptions are caught by the source, so a raising
enforcement leaves the state unchanged and the function still returns.
-/

structure FirewallState where
  blocked : Finset String
  record : List String
deriving DecidableEq

/-- FirewallManager._save_blocked_ips: json.dump(sorted(list(s))). -/
def saveIps (s : Finset String) : List String :=
  s.sort (· ≤ ·)

/-- FirewallManager._load_blocked_ips: set(json.load(f)). -/
def loadIps (l : List String) : Finset String :=
  l.toFinset

/-- FirewallManager.block_ip. -/
def block_ip (isPrivF : String → Bool) (osWindows : Bool)
    (enfRaises : String → Bool) (st : FirewallState) (ip : String) :
    FirewallState :=
  if isPrivF ip then st
  else if ip ∈ st.blocked then st
  else if osWindows && enfRaises ip then st
  else { blocked := insert ip st.blocked, record := saveIps (insert ip st.blocked) }

/-- FirewallManager.unblock_ip. -/
def unblock_ip (osWindows : Bool) (delRaises : String → Bool)
    (st : FirewallState) (ip : String) : FirewallState :=
  if ip ∉ st.blocked then st
  else if osWindows && delRaises ip then st
  else { blocked := st.blocked.erase ip, record := saveIps (st.blocked.erase ip) }

/-!
Integrity drift detector (integrity_monitor.py).  Baseline and current
snapshot are dicts from normalized path to digest.  The filesystem scan is
a parameter (the current snapshot); detect_drift is the pure comparison.
-/

structure MonitorState where
  baseline : List (String × String)
deriving DecidableEq

structure IntegrityEvent where
  timestamp : String
  modified : List String
  added : List String
  removed : List String
  total_changes : ℕ
deriving DecidableEq, Repr

/-- Baseline entries whose path is absent from the current snapshot, in
baseline order (the removed list of detect_drift). -/
def driftRemoved (baseline current : List (String × String)) : List String :=
  (baseline.filter (fun p => (dictGet current p.1).isNone)).map Prod.fst

/-- Baseline entries present in the current snapshot with a different
digest, in baseline order (the modified list of detect_drift). -/
def driftModified (baseline current : List (String × String)) : List String :=
  (baseline.filter (fun p =>
      match dictGet current p.1 with
      | none => false
      | some h => h != p.2)).map Prod.fst

/-- Current-snapshot entries whose path is not a baseline key, in scan
order (the added list of detect_drift). -/
def driftAdded (baseline current : List (String × String)) : List String :=
  (current.filter (fun p => !((baseline.map Prod.fst).contains p.1))).map Prod.fst

/-- FileIntegrityMonitor.detect_drift: compares the current snapshot with
the stored baseline, returns an event only when a change exists, and never
reassigns the baseline. -/
def detect_drift (ts : String) (st : MonitorState)
    (current : List (String × String)) : Option IntegrityEvent × MonitorState :=
  let modified := driftModified st.baseline current
  let removed := driftRemoved st.baseline current
  let added := driftAdded st.baseline current
  let ev : Option IntegrityEvent :=
    if modified.isEmpty && removed.isEmpty && added.isEmpty then none
    else some { timestamp := ts, modified := modified, added := added,
                removed := removed,
                total_changes := modified.length + added.length + removed.length }
  (ev, st)

/-- FileIntegrityMonitor._save_baseline: json.dump of the path-to-digest
dict; the serialized form is modelled by the pair list itself. -/
def save_baseline (b : List (String × String)) : List (String × String) := b

/-- FileIntegrityMonitor._load_baseline: rebuilds the dict applying
os.path.normcase to every key. -/
def load_baseline (normcase : String → String)
    (data : List (String × String)) : List (String × String) :=
  data.map (fun p => (normcase p.1, p.2))

/-!
Triage orchestrator (main.py, process_packet).  geoPriv is
GeoLocator._is_private_ip (false on unparsable input), fwPriv is
FirewallManager._is_private_ip (true on unparsable input); intel and
behavior stand for the reputation and behavioral score calls on the chosen
external address; loc is the geolocation result.  The returned natural
number counts the invocations of FirewallManager.block_ip made by the call.
-/

structure Location where
  country : String
  latitude : ℚ
  longitude : ℚ

structure ThreatEvent where
  src_ip : String
  dst_ip : String
  external_ip : String
  score : ℚ
  country : String
  lat : ℚ
  lon : ℚ
  blocked : Bool

/-- main.process_packet for a packet with an IP layer. -/
def process_packet (geoPriv fwPriv : String → Bool) (osWindows : Bool)
    (enfRaises : String → Bool) (intel behavior : String → ℚ)
    (loc : Option Location) (fw : FirewallState) (src dst : String) :
    Option (ℕ × FirewallState × ThreatEvent) :=
  if geoPriv src && geoPriv dst then none
  else
    let external_ip := if geoPriv src then dst else src
    let intel_score := intel external_ip
    let behavior_score := behavior external_ip
    let final_score := min 1 (round2 (intel_score + behavior_score))
    let country := match loc with | some l => l.country | none => "Unknown"
    let lat := match loc with | some l => l.latitude | none => 0
    let lon := match loc with | some l => l.longitude | none => 0
    let blockCalls : ℕ := if final_score ≥ 3/5 then 1 else 0
    let fw2 := if final_score ≥ 3/5 then block_ip fwPriv osWindows enfRaises fw external_ip
               else fw
    some (blockCalls, fw2,
      { src_ip := src, dst_ip := dst, external_ip := external_ip,
        score := final_score, country := country, lat := lat, lon := lon,
        blocked := decide (final_score ≥ 3/5) })

theorem abuse_lookup_mem_unit (hasKey coolingDown : Bool)
    (apiResult : Option ℚ) (v : ℚ)
    (h : abuse_lookup hasKey coolingDown apiResult = some v) :
    0 ≤ v ∧ v ≤ 1 := by
  unfold abuse_lookup at h
  split at h
  · exact absurd h (by simp)
  · split at h
    · exact absurd h (by simp)
    · cases apiResult with
      | none => exact absurd h (by simp)
      | some s =>
        rw [Option.some_inj] at h
        subst h
        exact ⟨le_min (by norm_num) (le_max_left _ _), min_le_left _ _⟩

/-- C5: check_ip_reputation always returns a value in the unit interval,
and returns exactly 0 for unparsable input and for private (hence also
loopback) addresses, independently of the drop list, the external lookup
and the heuristic fallback. -/
theorem c5_reputation_range (O : IpOracle) (bad_entries : List String)
    (hasKey coolingDown : Bool) (apiResult : Option ℚ) (hashf : String → ℤ)
    (ip : String) :
    (0 ≤ check_ip_reputation O bad_entries hasKey coolingDown apiResult hashf ip ∧
      check_ip_reputation O bad_entries hasKey coolingDown apiResult hashf ip ≤ 1) ∧
    (O.parses ip = false ∨ O.isPriv ip = true →
      check_ip_reputation O bad_entries hasKey coolingDown apiResult hashf ip = 0) := by
  constructor
  · unfold check_ip_reputation
    split
    · norm_num
    · split
      · norm_num
      · split
        · norm_num
        · split
          · rename_i v hv
            have := abuse_lookup_mem_unit hasKey coolingDown apiResult v hv
            exact round2_mem_unit v this.1 this.2
          · exact heuristic_bounds hashf ip
  · intro h
    rcases h with h | h
    · simp [check_ip_reputation, h]
    · by_cases hp : O.parses ip
      · simp [check_ip_reputation, hp, h]
      · simp [check_ip_reputation, hp]

/-- C5 witness: the loopback address 127.0.0.1 (private in the Python
ipaddress sense) scores exactly 0. -/
theorem c5_witness :
    check_ip_reputation ⟨fun _ => true, fun _ => true, fun _ _ => none⟩ []
      false false none (fun _ => 0) "127.0.0.1" = 0 :=
  (c5_reputation_range ⟨fun _ => true, fun _ => true, fun _ _ => none⟩ []
    false false none (fun _ => 0) "127.0.0.1").2 (Or.inr rfl)

theorem roundHalfEven_intCast (n : ℤ) : roundHalfEven (n : ℚ) = n := by
  unfold roundHalfEven
  rw [Int.floor_intCast]
  norm_num

theorem round2_of_eq_hundredths (q : ℚ) (n : ℤ) (h : q * 100 = (n : ℚ)) :
    round2 q = (n : ℚ)/100 := by
  unfold round2
  rw [h, roundHalfEven_intCast]

/-- C4 counterexample: the medium-risk jitter is NOT smaller than the
high-risk jitter.  With hash residue 9, the medium-tier address 13.0.0.1
carries jitter 0.27 above its base 0.2, while the high-tier address
45.0.0.1 carries only 0.18 above its base 0.75. -/
theorem c4_counterexample :
    matchesAny medRisk "13.0.0.1" = true ∧
    matchesAny highRisk "13.0.0.1" = false ∧
    matchesAny highRisk "45.0.0.1" = true ∧
    ¬ (heuristic (fun _ => 9) "13.0.0.1" - 1/5 ≤
        heuristic (fun _ => 9) "45.0.0.1" - 3/4) := by
  have hm13 : matchesAny medRisk "13.0.0.1" = true := by decide
  have hh13 : matchesAny highRisk "13.0.0.1" = false := by decide
  have hh45 : matchesAny highRisk "45.0.0.1" = true := by decide
  have hjit1 : jitterIdx (fun _ => 9) "13.0.0.1" = 9/10 := by norm_num [jitterIdx]
  have hjit2 : jitterIdx (fun _ => 9) "45.0.0.1" = 9/10 := by norm_num [jitterIdx]
  have h1 : heuristic (fun _ => 9) "13.0.0.1" = 47/100 := by
    have e1 : heuristic (fun _ => 9) "13.0.0.1" =
        round2 (1/5 + 3/10 * jitterIdx (fun _ => 9) "13.0.0.1") := by
      simp [heuristic, hh13, hm13]
    rw [e1, hjit1, round2_of_eq_hundredths _ 47 (by norm_num)]
    norm_num
  have h2 : heuristic (fun _ => 9) "45.0.0.1" = 93/100 := by
    have e2 : heuristic (fun _ => 9) "45.0.0.1" =
        round2 (3/4 + 1/5 * jitterIdx (fun _ => 9) "45.0.0.1") := by
      simp [heuristic, hh45]
    rw [e2, hjit2, round2_of_eq_hundredths _ 93 (by norm_num)]
    norm_num
  refine ⟨hm13, hh13, hh45, ?_⟩
  rw [h1, h2]
  norm_num

/-- C4 (amended): high-risk addresses score round2 of base 0.75 plus a
deterministic jitter in the range 0 to 0.18; medium-risk addresses score
round2 of base 0.2 plus a deterministic jitter in the range 0 to 0.27,
whose coefficient (0.3) is LARGER than the high tier's (0.2), not smaller;
all other addresses score a deterministic epsilon of at most 0.02; the
fallback score is a pure function of the address and its hash value. -/
theorem c4_heuristic_tiers (hashf : String → ℤ) (ip : String) :
    (0 ≤ jitterIdx hashf ip ∧ jitterIdx hashf ip ≤ 9/10) ∧
    (matchesAny highRisk ip = true →
        heuristic hashf ip = round2 (3/4 + (1/5) * jitterIdx hashf ip) ∧
        0 ≤ (1/5) * jitterIdx hashf ip ∧ (1/5) * jitterIdx hashf ip ≤ 18/100 ∧
        3/4 ≤ heuristic hashf ip ∧ heuristic hashf ip ≤ 93/100) ∧
    (matchesAny highRisk ip = false → matchesAny medRisk ip = true →
        heuristic hashf ip = round2 (1/5 + (3/10) * jitterIdx hashf ip) ∧
        0 ≤ (3/10) * jitterIdx hashf ip ∧ (3/10) * jitterIdx hashf ip ≤ 27/100 ∧
        1/5 ≤ heuristic hashf ip ∧ heuristic hashf ip ≤ 47/100) ∧
    (matchesAny highRisk ip = false → matchesAny medRisk ip = false →
        heuristic hashf ip = round2 ((1/50) * jitterIdx hashf ip) ∧
        0 ≤ heuristic hashf ip ∧ heuristic hashf ip ≤ 2/100) ∧
    (∀ g : String → ℤ, g ip = hashf ip → heuristic g ip = heuristic hashf ip) := by
  obtain ⟨j1, j2⟩ := jitterIdx_bounds hashf ip
  refine ⟨⟨j1, j2⟩, ?_, ?_, ?_, ?_⟩
  · intro hh
    have he : heuristic hashf ip = round2 (3/4 + (1/5) * jitterIdx hashf ip) := by
      simp [heuristic, hh]
    have hb := round2_bounds 75 93 (3/4 + (1/5) * jitterIdx hashf ip)
      (by push_cast; linarith) (by push_cast; linarith)
    push_cast at hb
    refine ⟨he, by linarith, by linarith, ?_, ?_⟩ <;> rw [he] <;> linarith [hb.1, hb.2]
  · intro hh hm
    have he : heuristic hashf ip = round2 (1/5 + (3/10) * jitterIdx hashf ip) := by
      simp [heuristic, hh, hm]
    have hb := round2_bounds 20 47 (1/5 + (3/10) * jitterIdx hashf ip)
      (by push_cast; linarith) (by push_cast; linarith)
    push_cast at hb
    refine ⟨he, by linarith, by linarith, ?_, ?_⟩ <;> rw [he] <;> linarith [hb.1, hb.2]
  · intro hh hm
    have he : heuristic hashf ip = round2 ((1/50) * jitterIdx hashf ip) := by
      simp [heuristic, hh, hm]
    have hb := round2_bounds 0 2 ((1/50) * jitterIdx hashf ip)
      (by push_cast; linarith) (by push_cast; linarith)
    push_cast at hb
    refine ⟨he, ?_, ?_⟩ <;> rw [he] <;> linarith [hb.1, hb.2]
  · intro g hg
    simp [heuristic, jitterIdx, hg]

/-- C4 witness: the high-risk tier equations and bounds instantiated at
address 45.0.0.1 with hash residue 9. -/
theorem c4_witness :
    heuristic (fun _ => 9) "45.0.0.1" =
      round2 (3/4 + (1/5) * jitterIdx (fun _ => 9) "45.0.0.1") ∧
    0 ≤ (1/5) * jitterIdx (fun _ => 9) "45.0.0.1" ∧
    (1/5) * jitterIdx (fun _ => 9) "45.0.0.1" ≤ 18/100 ∧
    3/4 ≤ heuristic (fun _ => 9) "45.0.0.1" ∧
    heuristic (fun _ => 9) "45.0.0.1" ≤ 93/100 :=
  (c4_heuristic_tiers (fun _ => 9) "45.0.0.1").2.1 (by decide)

theorem cts_learning_mode (r : RandDraws) (now : ℚ) (ip : String)
    (st : DetectorState) :
    (calculate_threat_score r now ip st).2.learning_mode =
      if st.learning_mode ∧ now - st.learning_start > st.learning_period
      then false else st.learning_mode := rfl

/-- C2 counterexample: with the configured window 15 and start time 0, at
time 20 (elapsed 20, beyond the window) the untouched initial detector
state still reports Learning, because get_status only reads the mode flag
and the flag is updated lazily inside calculate_threat_score only. -/
theorem c2_counterexample :
    (initDetector 0).learning_period ≤ 20 - (initDetector 0).learning_start ∧
    get_status 20 (initDetector 0) ≠ ScorerStatus.monitoring := by
  constructor
  · norm_num [initDetector]
  · have h : get_status 20 (initDetector 0) = ScorerStatus.learning
        (max 0 (pyInt ((initDetector 0).learning_period -
          (20 - (initDetector 0).learning_start)))) := rfl
    rw [h]
    simp

/-- C2 (amended): get_status reports Monitoring exactly when the mode flag
is off; the flag is cleared by a calculate_threat_score call exactly when
it was on and the elapsed time strictly exceeds the learning window (so
get_status itself never performs the transition and reflects elapsed time
only through scoring calls); and once the flag is off, no sequence of
further scoring calls ever turns it back on. -/
theorem c2_mode_transition :
    (∀ (now : ℚ) (st : DetectorState),
        get_status now st = ScorerStatus.monitoring ↔ st.learning_mode = false) ∧
    (∀ (r : RandDraws) (now : ℚ) (ip : String) (st : DetectorState),
        (calculate_threat_score r now ip st).2.learning_mode = false ↔
          (st.learning_mode = false ∨
            st.learning_period < now - st.learning_start)) ∧
    (∀ (calls : List (RandDraws × ℚ × String)) (st : DetectorState),
        st.learning_mode = false → (runCalls calls st).learning_mode = false) := by
  refine ⟨?_, ?_, ?_⟩
  · intro now st
    cases hl : st.learning_mode <;> simp [get_status, hl]
  · intro r now ip st
    rw [cts_learning_mode]
    cases hl : st.learning_mode <;>
      by_cases hc : st.learning_period < now - st.learning_start <;>
      simp [hl, hc]
  · intro calls
    induction calls with
    | nil => intro st h; exact h
    | cons c rest ih =>
      intro st h
      have h2 : (calculate_threat_score c.1 c.2.1 c.2.2 st).2.learning_mode = false := by
        rw [cts_learning_mode]
        simp [h]
      exact ih _ h2

/-- C2 witness: the no-way-back clause instantiated on a state whose flag
is already off. -/
theorem c2_witness :
    (runCalls [(⟨1, 1, 0⟩, 20, "203.0.113.5")]
      { ip_activity := [], learning_mode := false, learning_start := 0,
        learning_period := 15 }).learning_mode = false :=
  c2_mode_transition.2.2 [(⟨1, 1, 0⟩, 20, "203.0.113.5")]
    { ip_activity := [], learning_mode := false, learning_start := 0,
      learning_period := 15 } rfl

/-- C6: on the first scoring call for an address not yet in the activity
map, the record is created with last_seen equal to the call's timestamp, so
the observed interval is 0, the deviation term is 1 and the burst bonus
applies: for every draw of the three random factors within their source
ranges (seed in 0.5 to 3.0, factor in 0.6 to 1.0, noise in 0.0 to 0.2) the
returned score lies in the interval 0.9 to 1.0. -/
theorem c6_first_call_burst (r : RandDraws) (now : ℚ) (ip : String)
    (st : DetectorState) (hnew : dictGet st.ip_activity ip = none)
    (ha1 : 1/2 ≤ r.init_avg) (ha2 : r.init_avg ≤ 3)
    (hf1 : 3/5 ≤ r.factor) (hf2 : r.factor ≤ 1)
    (hn1 : 0 ≤ r.noise) (hn2 : r.noise ≤ 1/5) :
    9/10 ≤ (calculate_threat_score r now ip st).1 ∧
    (calculate_threat_score r now ip st).1 ≤ 1 := by
  have havg0 : (0:ℚ) < r.init_avg := by linarith
  have havg : r.init_avg ≠ 0 := ne_of_gt havg0
  have key : (calculate_threat_score r now ip st).1 =
      round2 (min 1 (1 * r.factor + 3/10 + r.noise)) := by
    simp only [calculate_threat_score, hnew, sub_self, sub_zero]
    rw [div_self havg]
    rw [if_pos (show (0:ℚ) < 3/10 by norm_num)]
    rw [max_eq_right zero_le_one]
  rw [key]
  have hlo : (90:ℚ)/100 ≤ min 1 (1 * r.factor + 3/10 + r.noise) :=
    le_min (by norm_num) (by linarith)
  have hhi : min 1 (1 * r.factor + 3/10 + r.noise) ≤ (100:ℚ)/100 := by
    have h := min_le_left (1:ℚ) (1 * r.factor + 3/10 + r.noise)
    linarith
  have hb := round2_bounds 90 100 (min 1 (1 * r.factor + 3/10 + r.noise))
    (by push_cast; linarith) (by push_cast; linarith)
  push_cast at hb
  constructor <;> linarith [hb.1, hb.2]

/-- C6 witness: the first call for an unseen address on the initial state,
with seed 1, factor 0.6 and noise 0, scores within 0.9 and 1.0. -/
theorem c6_witness :
    9/10 ≤ (calculate_threat_score ⟨1, 3/5, 0⟩ 0 "203.0.113.5" (initDetector 0)).1 ∧
    (calculate_threat_score ⟨1, 3/5, 0⟩ 0 "203.0.113.5" (initDetector 0)).1 ≤ 1 :=
  c6_first_call_burst ⟨1, 3/5, 0⟩ 0 "203.0.113.5" (initDetector 0) rfl
    (by norm_num) (by norm_num) (by norm_num) (by norm_num) (by norm_num)
    (by norm_num)

/-- C3 counterexample: on the Windows branch with an enforcement
invocation that raises, a public address not yet blocked is NOT added to
the durable set: the add and save statements sit inside the try block, so
the caught exception skips them.  The claim requires the address to still
be recorded as logically blocked. -/
theorem c3_counterexample :
    (fun _ => false : String → Bool) "203.0.113.9" = false ∧
    "203.0.113.9" ∉ (FirewallState.mk ∅ []).blocked ∧
    (block_ip (fun _ => false) true (fun _ => true)
        (FirewallState.mk ∅ []) "203.0.113.9").blocked = ∅ ∧
    "203.0.113.9" ∉ (block_ip (fun _ => false) true (fun _ => true)
        (FirewallState.mk ∅ []) "203.0.113.9").blocked := by
  refine ⟨rfl, by simp, ?_, ?_⟩ <;> simp [block_ip]

/-- C3 (amended): for a non-private address not already blocked, block_ip
adds the address to the set and persists immediately whenever the
enforcement invocation returns (its exit status is ignored, so a failing
command still records the address); when the invocation raises, the
exception is caught (non-fatal, the call still returns) but the address is
not added and nothing is persisted. -/
theorem c3_block_records (isPrivF : String → Bool) (osWindows : Bool)
    (enfRaises : String → Bool) (st : FirewallState) (ip : String)
    (hp : isPrivF ip = false) (hb : ip ∉ st.blocked) :
    (¬ (osWindows = true ∧ enfRaises ip = true) →
        (block_ip isPrivF osWindows enfRaises st ip).blocked =
          insert ip st.blocked ∧
        (block_ip isPrivF osWindows enfRaises st ip).record =
          saveIps (insert ip st.blocked)) ∧
    ((osWindows = true ∧ enfRaises ip = true) →
        block_ip isPrivF osWindows enfRaises st ip = st) := by
  constructor
  · intro hn
    have hor : (osWindows && enfRaises ip) = false := by
      cases hw : osWindows <;> cases he : enfRaises ip <;> simp_all
    simp [block_ip, hp, hb, hor]
  · rintro ⟨h1, h2⟩
    simp [block_ip, hp, hb, h1, h2]

/-- C3 witness: a successful enforcement records and persists the address. -/
theorem c3_witness :
    (block_ip (fun _ => false) false (fun _ => false)
        (FirewallState.mk ∅ []) "203.0.113.9").blocked =
      insert "203.0.113.9" (∅ : Finset String) ∧
    (block_ip (fun _ => false) false (fun _ => false)
        (FirewallState.mk ∅ []) "203.0.113.9").record =
      saveIps (insert "203.0.113.9" ∅) :=
  (c3_block_records (fun _ => false) false (fun _ => false)
      (FirewallState.mk ∅ []) "203.0.113.9" rfl
      (Finset.not_mem_empty _)).1 (by simp)

/-- C9: block_ip is idempotent (a second block of the same address under
the same environment leaves the state exactly as after the first), and
unblock_ip of an address not in the blocked set changes neither the set
nor the persisted record. -/
theorem c9_block_unblock_idem (isPrivF : String → Bool) (osWindows : Bool)
    (enfRaises delRaises : String → Bool) (st : FirewallState) (ip : String) :
    block_ip isPrivF osWindows enfRaises
        (block_ip isPrivF osWindows enfRaises st ip) ip =
      block_ip isPrivF osWindows enfRaises st ip ∧
    (ip ∉ st.blocked → unblock_ip osWindows delRaises st ip = st) := by
  constructor
  · by_cases h1 : isPrivF ip
    · simp [block_ip, h1]
    · by_cases h2 : ip ∈ st.blocked
      · simp [block_ip, h1, h2]
      · by_cases h3 : (osWindows && enfRaises ip) = true
        · simp [block_ip, h1, h2, h3]
        · simp [block_ip, h1, h2, h3, Finset.mem_insert_self]
  · intro h
    simp [unblock_ip, h]

/-- C9 witness: double block on a concrete empty state, and unblock on a
never-blocked address. -/
theorem c9_witness :
    block_ip (fun _ => false) false (fun _ => false)
        (block_ip (fun _ => false) false (fun _ => false)
          (FirewallState.mk ∅ []) "203.0.113.9") "203.0.113.9" =
      block_ip (fun _ => false) false (fun _ => false)
        (FirewallState.mk ∅ []) "203.0.113.9" ∧
    unblock_ip false (fun _ => false) (FirewallState.mk ∅ []) "203.0.113.9" =
      FirewallState.mk ∅ [] :=
  ⟨(c9_block_unblock_idem (fun _ => false) false (fun _ => false)
      (fun _ => false) (FirewallState.mk ∅ []) "203.0.113.9").1,
   (c9_block_unblock_idem (fun _ => false) false (fun _ => false)
      (fun _ => false) (FirewallState.mk ∅ []) "203.0.113.9").2
     (Finset.not_mem_empty _)⟩

/-- C10: the blocked-address record round-trips (loading the sorted list
written by save yields the same set), and a baseline snapshot whose keys
are already normalized round-trips through save and load. -/
theorem c10_roundtrip :
    (∀ s : Finset String, loadIps (saveIps s) = s) ∧
    (∀ (normcase : String → String) (b : List (String × String)),
        (∀ p ∈ b, normcase p.1 = p.1) →
        load_baseline normcase (save_baseline b) = b) := by
  constructor
  · intro s
    exact Finset.sort_toFinset _ s
  · intro normcase b h
    unfold load_baseline save_baseline
    induction b with
    | nil => rfl
    | cons p rest ih =>
      have h1 := h p (List.mem_cons_self p rest)
      have h2 : ∀ q ∈ rest, normcase q.1 = q.1 :=
        fun q hq => h q (List.mem_cons_of_mem p hq)
      simp [h1, ih h2]

/-- C10 witness: both round-trips on concrete records. -/
theorem c10_witness :
    loadIps (saveIps {"203.0.113.5"}) = {"203.0.113.5"} ∧
    load_baseline id (save_baseline [("/a", "h1"), ("/b", "h2")]) =
      [("/a", "h1"), ("/b", "h2")] :=
  ⟨c10_roundtrip.1 {"203.0.113.5"},
   c10_roundtrip.2 id [("/a", "h1"), ("/b", "h2")] (fun p _ => rfl)⟩



theorem contains_keys_eq_false {α : Type} (l : List (String × α)) (k : String) :
    ((l.map Prod.fst).contains k = false) ↔ dictGet l k = none := by
  rw [dictGet_eq_none, ← Bool.not_eq_true]
  exact not_congr List.elem_iff

/-- C7: detect_drift computes removed as baseline paths absent from the
current snapshot, modified as paths present in both with differing digests,
added as current paths absent from the baseline; it returns an event if
and only if at least one of the three lists is non-empty, and that event
carries exactly those lists with totalChanges equal to the sum of their
lengths; otherwise it returns the explicit no-change signal none. -/
theorem c7_drift_sets (ts : String) (st : MonitorState)
    (current : List (String × String))
    (hb : (st.baseline.map Prod.fst).Nodup) :
    (∀ p, p ∈ driftRemoved st.baseline current ↔
        (p ∈ st.baseline.map Prod.fst ∧ dictGet current p = none)) ∧
    (∀ p, p ∈ driftModified st.baseline current ↔
        ∃ h1 h2, dictGet st.baseline p = some h1 ∧
          dictGet current p = some h2 ∧ h2 ≠ h1) ∧
    (∀ p, p ∈ driftAdded st.baseline current ↔
        (p ∈ current.map Prod.fst ∧ dictGet st.baseline p = none)) ∧
    ((∃ e, (detect_drift ts st current).1 = some e) ↔
        (driftModified st.baseline current ≠ [] ∨
         driftRemoved st.baseline current ≠ [] ∨
         driftAdded st.baseline current ≠ [])) ∧
    (∀ e, (detect_drift ts st current).1 = some e →
        e.timestamp = ts ∧
        e.modified = driftModified st.baseline current ∧
        e.added = driftAdded st.baseline current ∧
        e.removed = driftRemoved st.baseline current ∧
        e.total_changes =
          e.modified.length + e.added.length + e.removed.length) := by
  refine ⟨?_, ?_, ?_, ?_, ?_⟩
  · intro p
    unfold driftRemoved
    simp only [List.mem_map, List.mem_filter]
    constructor
    · rintro ⟨a, ⟨ha, hf⟩, rfl⟩
      exact ⟨⟨a, ha, rfl⟩, Option.isNone_iff_eq_none.mp hf⟩
    · rintro ⟨⟨a, ha, rfl⟩, hn⟩
      exact ⟨a, ⟨ha, by simp [hn]⟩, rfl⟩
  · intro p
    unfold driftModified
    simp only [List.mem_map, List.mem_filter]
    constructor
    · rintro ⟨a, ⟨ha, hf⟩, rfl⟩
      cases hcur : dictGet current a.1 with
      | none => simp [hcur] at hf
      | some h2 =>
        rw [hcur] at hf
        simp only [bne_iff_ne, ne_eq] at hf
        refine ⟨a.2, h2, ?_, rfl, hf⟩
        exact (dictGet_eq_some _ hb _ _).mpr (by simpa using ha)
    · rintro ⟨h1, h2, hb1, hc1, hne⟩
      have hmem : (p, h1) ∈ st.baseline := (dictGet_eq_some _ hb _ _).mp hb1
      refine ⟨(p, h1), ⟨hmem, ?_⟩, rfl⟩
      simp [hc1, hne]
  · intro p
    unfold driftAdded
    simp only [List.mem_map, List.mem_filter, Bool.not_eq_true']
    constructor
    · rintro ⟨a, ⟨ha, hf⟩, rfl⟩
      exact ⟨⟨a, ha, rfl⟩, (contains_keys_eq_false _ _).mp hf⟩
    · rintro ⟨⟨a, ha, rfl⟩, hn⟩
      exact ⟨a, ⟨ha, (contains_keys_eq_false _ _).mpr hn⟩, rfl⟩
  · unfold detect_drift
    by_cases hm : driftModified st.baseline current = []
    · by_cases hr : driftRemoved st.baseline current = []
      · by_cases ha2 : driftAdded st.baseline current = []
        · simp [hm, hr, ha2]
        · simp [hm, hr, ha2]
      · simp [hm, hr]
    · simp [hm]
  · intro e he
    simp only [detect_drift] at he
    split at he
    · exact absurd he (by simp)
    · rw [Option.some_inj] at he
      subst he
      exact ⟨rfl, rfl, rfl, rfl, rfl⟩

/-- C7 witness: the added-path characterization instantiated on the spec
scenario: with baseline /a to h1 and /b to h2 and a current scan of /a to
h1, /b to h3 and /c to h4, the path /c is in the added list exactly
because it is a current path absent from the baseline. -/
theorem c7_witness :
    ("/c" ∈ driftAdded [("/a", "h1"), ("/b", "h2")]
        [("/a", "h1"), ("/b", "h3"), ("/c", "h4")] ↔
      ("/c" ∈ ([("/a", "h1"), ("/b", "h3"), ("/c", "h4")] :
          List (String × String)).map Prod.fst ∧
        dictGet [("/a", "h1"), ("/b", "h2")] "/c" = none)) :=
  (c7_drift_sets "t" (MonitorState.mk [("/a", "h1"), ("/b", "h2")])
    [("/a", "h1"), ("/b", "h3"), ("/c", "h4")] (by decide)).2.2.1 "/c"

/-- C8: detect_drift never modifies the stored baseline, and therefore a
second call against the same filesystem snapshot returns exactly the same
result as the first (the same no-change signal, or an identical event). -/
theorem c8_drift_frame (ts : String) (st : MonitorState)
    (current : List (String × String)) :
    (detect_drift ts st current).2 = st ∧
    (detect_drift ts (detect_drift ts st current).2 current).1 =
      (detect_drift ts st current).1 := by
  constructor <;> rfl

/-- C1: for every processed flow whose endpoints are not both private, the
emitted event's combined score is min(1, round2(reputation + behavior)) of
the externally-routable side; when the score reaches the fixed threshold
0.6, exactly one block_ip call is made and the blocked flag is true; below
the threshold no block_ip call is made and the flag is false. -/
theorem c1_triage_threshold (geoPriv fwPriv : String → Bool)
    (osWindows : Bool) (enfRaises : String → Bool)
    (intel behavior : String → ℚ) (loc : Option Location)
    (fw : FirewallState) (src dst : String)
    (h : (geoPriv src && geoPriv dst) = false) :
    ∃ calls fw2 ev,
      process_packet geoPriv fwPriv osWindows enfRaises intel behavior loc
          fw src dst = some (calls, fw2, ev) ∧
      ev.src_ip = src ∧ ev.dst_ip = dst ∧
      ev.external_ip = (if geoPriv src then dst else src) ∧
      ev.score = min 1 (round2 (intel ev.external_ip + behavior ev.external_ip)) ∧
      (ev.blocked = true ↔ ev.score ≥ 3/5) ∧
      calls = (if ev.score ≥ 3/5 then 1 else 0) ∧
      calls ≤ 1 ∧
      fw2 = (if ev.score ≥ 3/5 then
        block_ip fwPriv osWindows enfRaises fw ev.external_ip else fw) := by
  have hcond : ¬ ((geoPriv src && geoPriv dst) = true) := by simp [h]
  unfold process_packet
  rw [if_neg hcond]
  refine ⟨_, _, _, rfl, rfl, rfl, rfl, rfl, ?_, rfl, ?_, rfl⟩
  · exact decide_eq_true_iff
  · split <;> split <;> norm_num

/-- C1 witness: a flow from a public source with reputation 0.61 and
behavior score 0 triggers exactly one block call with the blocked flag
set. -/
theorem c1_witness :
    ∃ calls fw2 ev,
      process_packet (fun _ => false) (fun _ => false) false (fun _ => false)
          (fun _ => 61/100) (fun _ => 0) none (FirewallState.mk ∅ [])
          "198.51.100.7" "203.0.113.5" = some (calls, fw2, ev) ∧
      ev.src_ip = "198.51.100.7" ∧ ev.dst_ip = "203.0.113.5" ∧
      ev.external_ip =
        (if (fun _ => false : String → Bool) "198.51.100.7" then "203.0.113.5"
         else "198.51.100.7") ∧
      ev.score = min 1 (round2 ((fun _ => (61:ℚ)/100) ev.external_ip +
        (fun _ => (0:ℚ)) ev.external_ip)) ∧
      (ev.blocked = true ↔ ev.score ≥ 3/5) ∧
      calls = (if ev.score ≥ 3/5 then 1 else 0) ∧
      calls ≤ 1 ∧
      fw2 = (if ev.score ≥ 3/5 then
        block_ip (fun _ => false) false (fun _ => false)
          (FirewallState.mk ∅ []) ev.external_ip
        else FirewallState.mk ∅ []) :=
  c1_triage_threshold (fun _ => false) (fun _ => false) false (fun _ => false)
    (fun _ => 61/100) (fun _ => 0) none (FirewallState.mk ∅ [])
    "198.51.100.7" "203.0.113.5" rfl
